import Mathlib

/-!
Verification of the free-epic-game mail server (src/server.ts).

The server polls the Epic storefront catalog, keeps a history of the last
announced free game and a subscriber mailing list, and mails subscribers
when the free game changes.  The embedding below translates the pure
decision logic of server.ts: the catalog filter and first-match selection
(curGame), the mail-option construction with its computed to/bcc field
(sendMail), and the /send-to-mailList and /add-mail route handlers as
state-transition functions over the two Mongo collections, recording the
store writes and transporter invocations as an explicit effect trace.
-/

namespace EpicFreeGames

/-- Interface IGame of server.ts: a game record with its title (field
named game) and formatted start and end dates, as stored in the GamesList
collection and rendered into mail bodies. -/
structure IGame where
  game : String
  startDate : String
  endDate : String
deriving DecidableEq, Repr

/-- A raw catalog feed entry (an element of
data.Catalog.searchStore.elements): the title, and the effective and
expiry dates as instants in milliseconds since the epoch, i.e. the value
of new Date(s) on the feed timestamp strings.  expiryDate is none when the
feed field is null. -/
structure CatalogEntry where
  title : String
  effectiveDate : Int
  expiryDate : Option Int
deriving DecidableEq, Repr

/-- Civil calendar date (year, month, day) from a count of days since
1970-01-01 (the standard era-based Gregorian conversion). -/
def civilFromDays (z0 : Int) : Int × Int × Int :=
  let z := z0 + 719468
  let era : Int := z.fdiv 146097
  let doe : Int := z - era * 146097
  let yoe : Int := (doe - doe / 1460 + doe / 36524 - doe / 146096) / 365
  let y : Int := yoe + era * 400
  let doy : Int := doe - (365 * yoe + yoe / 4 - yoe / 100)
  let mp : Int := (5 * doy + 2) / 153
  let d : Int := doy - (153 * mp + 2) / 5 + 1
  let m : Int := mp + (if mp < 10 then 3 else -9)
  (if m ≤ 2 then y + 1 else y, m, d)

/-- formatDate of server.ts: new Date(dateStr).toLocaleDateString with the
en-IN locale, i.e. the day/month/year rendering of the calendar date of
the instant. -/
def formatDate (ms : Int) : String :=
  let c := civilFromDays (ms.fdiv 86400000)
  toString c.2.2 ++ "/" ++ toString c.2.1 ++ "/" ++ toString c.1

/-- formatToHTML of server.ts: the template literal rendering of a game
record.  The trailing JS fallback html-or-empty never fires because the
literal is nonempty; it is kept literally. -/
def formatToHTML (ele : IGame) : String :=
  let html :=
    "\n    <h1>Free Game from Epic Store</h1>\n    <h2>" ++ ele.game ++
    "</h2>\n    <h4>Start Date : " ++ ele.startDate ++
    "</h4>\n    <h4>End Date : " ++ ele.endDate ++ "</h4>\n    "
  if html = "" then "" else html

/-- The filter predicate inside curGame:
ele.expiryDate is not null, and now is strictly past new
Date(ele.effectiveDate). -/
def curFreeFilter (now : Int) (ele : CatalogEntry) : Bool :=
  ele.expiryDate.isSome && decide (ele.effectiveDate < now)

/-- The IGame built from a selected catalog entry inside curGame.  The
expiryDate default value 0 is never used: the entry was kept by the filter
so its expiryDate is present. -/
def gameDetailOf (ele : CatalogEntry) : IGame :=
  { game := ele.title
    startDate := formatDate ele.effectiveDate
    endDate := formatDate (ele.expiryDate.getD 0) }

/-- curGame of server.ts (lines 407 to 429): filter the feed elements to
those with a non-null expiryDate whose effectiveDate is strictly before
now, return null when none match, otherwise build the game detail of the
first match in feed order. -/
def curGame (now : Int) (elements : List CatalogEntry) : Option IGame :=
  let currentFreeGames := elements.filter (curFreeFilter now)
  match currentFreeGames with
  | [] => none
  | curFreeGame :: _ => some (gameDetailOf curFreeGame)

/-- The to field of IMailOptions in server.ts: string or string array. -/
inductive Recipients where
  | single (email : String)
  | many (emails : List String)
deriving DecidableEq, Repr

/-- Which address field the mail options carry the recipients under. -/
inductive AddrField where
  | to
  | bcc
deriving DecidableEq, Repr

/-- The mail options object passed to transporter.sendMail. -/
structure MailOptions where
  fromAddr : String
  addrField : AddrField
  recipients : String
  subject : String
  text : String
  html : String
deriving DecidableEq, Repr

/-- EMAIL_CONFIG.user of server.ts (the fallback value; the env override
is ambient configuration). -/
def EMAIL_USER : String := "your-email@gmail.com"

/-- JS x-or-default on an optional string: undefined and the falsy empty
string both yield the default. -/
def jsOrStr (x : Option String) (d : String) : String :=
  match x with
  | none => d
  | some s => if s = "" then d else s

/-- The mail options built by sendMail of server.ts (lines 438 to 455):
recipients is the comma join of an array argument or the string argument
itself, and the computed field name is bcc exactly when the argument is an
array of length greater than one, to otherwise.  The subject combines the
default parameter with the JS or-fallback; text and html fall back to the
empty string. -/
def buildMailOptions (toArg : Recipients) (subject text html : Option String) :
    MailOptions :=
  let recipients :=
    match toArg with
    | .single s => s
    | .many l => String.intercalate ", " l
  { fromAddr := EMAIL_USER
    addrField :=
      match toArg with
      | .single _ => .to
      | .many l => if 1 < l.length then .bcc else .to
    recipients := recipients
    subject := jsOrStr subject "Free epic game"
    text := jsOrStr text ""
    html := jsOrStr html "" }

/-- The server state the handlers read and write: the GamesList collection
as a list of game records newest first (the handler reads it sorted by
createdAt descending, and each save stamps a later createdAt), and the
MailList collection as the list of subscriber emails. -/
structure ServerState where
  history : List IGame
  mailList : List String
deriving DecidableEq, Repr

/-- An observable side effect of a handler run: a save of a new game
document into GamesList, or an invocation of transporter.sendMail with the
built options. -/
inductive Effect where
  | appendGame (g : IGame)
  | mailCall (opts : MailOptions)
deriving DecidableEq, Repr

/-- Outcome of the /send-to-mailList handler: the early return when
curGame yields null, the 200 same-game response, the 200 response naming
the notified game, or the caught transporter failure passed to the error
middleware. -/
inductive SendListResult where
  | errorNoGame
  | sameGame
  | notified (name : String)
  | sendFailed
deriving DecidableEq, Repr

/-- Outcome of the /add-mail handler: the 400 duplicate rejection, the 201
success, or the caught transporter failure passed to the error
middleware. -/
inductive AddMailResult where
  | duplicate
  | added
  | addFailed
deriving DecidableEq, Repr

/-- The HTTP status the /add-mail handler reports for each outcome:
AppError with statusCode 400 for a duplicate, 201 on success, AppError
with the default statusCode 500 when the send throws. -/
def addMailStatus : AddMailResult → Nat
  | .duplicate => 400
  | .added => 201
  | .addFailed => 500

/-- JS strict equality of a string against a possibly-undefined string
(latestGame.game === latestSavedGame?.game): false when the right side is
undefined. -/
def jsStrictEqOpt (a : String) (b : Option String) : Bool :=
  match b with
  | some s => a == s
  | none => false

/-- The /send-to-mailList handler of server.ts (lines 512 to 542) as a
state-transition function.  mailOk models whether transporter.sendMail
succeeds; now and feed model the clock and the fetched catalog elements.
The handler fetches the current game (early return when null), reads the
latest saved game by createdAt, answers same-game when the titles are
strictly equal, and otherwise saves the new game, then mails the whole
mailing list the rendered body. -/
def sendToMailList (mailOk : Bool) (now : Int) (feed : List CatalogEntry)
    (st : ServerState) : SendListResult × ServerState × List Effect :=
  match curGame now feed with
  | none => (.errorNoGame, st, [])
  | some latestGame =>
      let latestSavedGame := st.history.head?
      if jsStrictEqOpt latestGame.game (latestSavedGame.map IGame.game) then
        (.sameGame, st, [])
      else
        let newGame : IGame :=
          { game := latestGame.game
            startDate := latestGame.startDate
            endDate := latestGame.endDate }
        let st1 : ServerState := { st with history := newGame :: st.history }
        let opts :=
          buildMailOptions (.many st1.mailList) none none
            (some (formatToHTML latestGame))
        ((if mailOk then .notified latestGame.game else .sendFailed), st1,
          [.appendGame newGame, .mailCall opts])

/-- The /add-mail handler of server.ts (lines 487 to 509) as a
state-transition function, after the email validation middleware.  A
present email is rejected with the 400 AppError and nothing happens;
otherwise the email is saved, and if a current free game exists a mail is
sent to that single address with the rendered body. -/
def addMail (mailOk : Bool) (now : Int) (feed : List CatalogEntry)
    (email : String) (st : ServerState) :
    AddMailResult × ServerState × List Effect :=
  if st.mailList.contains email then
    (.duplicate, st, [])
  else
    let st1 : ServerState := { st with mailList := st.mailList ++ [email] }
    match curGame now feed with
    | some game =>
        let opts :=
          buildMailOptions (.single email) none none
            (some (formatToHTML game))
        ((if mailOk then .added else .addFailed), st1, [.mailCall opts])
    | none => (.added, st1, [])

/-- The number of transporter.sendMail invocations in an effect trace. -/
def mailCallCount (effs : List Effect) : Nat :=
  (effs.filter fun e =>
    match e with
    | .mailCall _ => true
    | _ => false).length

/-- Two consecutive runs of the /send-to-mailList cycle against the same
feed with a working transporter: the pair of results, the final state, and
the concatenated effect trace. -/
def runCycleTwice (now : Int) (feed : List CatalogEntry) (st : ServerState) :
    (SendListResult × SendListResult) × ServerState × List Effect :=
  let r1 := sendToMailList true now feed st
  let r2 := sendToMailList true now feed r1.2.1
  ((r1.1, r2.1), r2.2.1, r1.2.2 ++ r2.2.2)

/-- A concrete feed entry used by the witnesses: free since instant 0,
expiring at instant 200000000000. -/
def eAlpha : CatalogEntry :=
  { title := "Alpha", effectiveDate := 0, expiryDate := some 200000000000 }

/-- The game detail curGame builds from eAlpha. -/
def gAlpha : IGame := gameDetailOf eAlpha

/-- A second concrete game record with a different title. -/
def gBeta : IGame :=
  { game := "Beta", startDate := "1/1/2025", endDate := "8/1/2025" }

/-- Eta rule for game records, used to identify the document the handler
saves with the fetched game record it copies. -/
theorem IGame.eta (g : IGame) :
    IGame.mk g.game g.startDate g.endDate = g := rfl

/-- The head of a filtered list is the first element satisfying the
predicate. -/
theorem head?_filter_eq_find? {a : Type} (p : a → Bool) (l : List a) :
    (l.filter p).head? = l.find? p := by
  induction l with
  | nil => rfl
  | cons x t ih =>
      by_cases h : p x
      · simp [List.filter_cons, h]
      · simp [List.filter_cons, h, ih]

/-- curGame is the game detail of the head of the filtered feed. -/
theorem curGame_eq_head_filter (now : Int) (feed : List CatalogEntry) :
    curGame now feed =
      ((feed.filter (curFreeFilter now)).head?).map gameDetailOf := by
  rcases hf : feed.filter (curFreeFilter now) with _ | ⟨x, t⟩ <;>
    simp [curGame, hf]

/-- C1: with both a fetched game and a last persisted game present, the
/send-to-mailList handler takes no action exactly when the two titles
coincide, regardless of any difference in the dates: same-game response,
unchanged state, no append and no mail; and whenever the titles differ it
persists the fetched game and invokes the mailer on the mailing list. -/
theorem sendToMailList_title_decision (now : Int) (feed : List CatalogEntry)
    (st : ServerState) (G Gp : IGame)
    (hG : curGame now feed = some G) (hGp : st.history.head? = some Gp) :
    (G.game = Gp.game →
      sendToMailList true now feed st = (.sameGame, st, [])) ∧
    (G.game ≠ Gp.game →
      sendToMailList true now feed st =
        (.notified G.game, { st with history := G :: st.history },
          [.appendGame G,
           .mailCall (buildMailOptions (.many st.mailList) none none
             (some (formatToHTML G)))])) := by
  constructor
  · intro h
    simp [sendToMailList, hG, hGp, jsStrictEqOpt, h]
  · intro h
    simp [sendToMailList, hG, hGp, jsStrictEqOpt, h, IGame.eta]

/-- Witness for C1 at a concrete state whose last persisted title differs
from the fetched one. -/
theorem sendToMailList_title_decision_witness :
    (gAlpha.game = gBeta.game →
      sendToMailList true 1 [eAlpha] ⟨[gBeta], []⟩ =
        (.sameGame, ⟨[gBeta], []⟩, [])) ∧
    (gAlpha.game ≠ gBeta.game →
      sendToMailList true 1 [eAlpha] ⟨[gBeta], []⟩ =
        (.notified gAlpha.game, ⟨gAlpha :: [gBeta], []⟩,
          [.appendGame gAlpha,
           .mailCall (buildMailOptions (.many []) none none
             (some (formatToHTML gAlpha)))])) :=
  sendToMailList_title_decision 1 [eAlpha] ⟨[gBeta], []⟩ gAlpha gBeta rfl rfl

/-- C2: the mail options built by sendMail address a lone recipient (a
single string, or an array of exactly one email) under the visible to
field, naming that recipient, and address an array of more than one
recipient under the blind bcc field. -/
theorem sendMail_recipient_mode (subject text html : Option String) :
    (∀ e, (buildMailOptions (.single e) subject text html).addrField = .to ∧
          (buildMailOptions (.single e) subject text html).recipients = e) ∧
    (∀ e, (buildMailOptions (.many [e]) subject text html).addrField = .to ∧
          (buildMailOptions (.many [e]) subject text html).recipients = e) ∧
    (∀ e1 e2 rest,
      (buildMailOptions (.many (e1 :: e2 :: rest)) subject text
          html).addrField = .bcc) := by
  refine ⟨fun e => ⟨rfl, rfl⟩, fun e => ⟨rfl, rfl⟩, fun e1 e2 rest => ?_⟩
  have h : 1 < (e1 :: e2 :: rest).length := by
    simp [List.length_cons]
  simp [buildMailOptions, h]

/-- C3: the curGame filter keeps exactly the entries with a present
expiryDate and an effectiveDate strictly before now, curGame returns the
game detail of the first such entry in feed order, and it returns none
exactly when no entry matches. -/
theorem curGame_first_match (now : Int) (feed : List CatalogEntry) :
    (∀ e, curFreeFilter now e = true ↔
      (∃ t, e.expiryDate = some t) ∧ e.effectiveDate < now) ∧
    curGame now feed = (feed.find? (curFreeFilter now)).map gameDetailOf ∧
    (curGame now feed = none ↔
      feed.all (fun e => ! curFreeFilter now e) = true) := by
  refine ⟨fun e => ?_, ?_, ?_⟩
  · simp [curFreeFilter, Option.isSome_iff_exists]
  · rw [curGame_eq_head_filter, head?_filter_eq_find?]
  · rw [curGame_eq_head_filter]
    simp [List.head?_eq_none_iff, List.filter_eq_nil_iff, List.all_eq_true]

/-- C4: against an unchanged feed yielding a game whose title differs
from the latest persisted one, two consecutive runs of the notify cycle
send exactly one mail: the first run notifies and persists the game, and
the second finds the same title and answers same-game. -/
theorem cycle_twice_one_notification (now : Int) (feed : List CatalogEntry)
    (st : ServerState) (G : IGame)
    (hG : curGame now feed = some G)
    (hnew : jsStrictEqOpt G.game (st.history.head?.map IGame.game) = false) :
    (runCycleTwice now feed st).1 = (.notified G.game, .sameGame) ∧
    mailCallCount (runCycleTwice now feed st).2.2 = 1 := by
  have h1 : sendToMailList true now feed st =
      (.notified G.game, { st with history := G :: st.history },
        [.appendGame G,
         .mailCall (buildMailOptions (.many st.mailList) none none
           (some (formatToHTML G)))]) := by
    simp [sendToMailList, hG, hnew, IGame.eta]
  have h2 : sendToMailList true now feed
      { st with history := G :: st.history } =
      (.sameGame, { st with history := G :: st.history }, []) := by
    simp [sendToMailList, hG, jsStrictEqOpt]
  simp [runCycleTwice, h1, h2, mailCallCount]

/-- Witness for C4: empty history, an unchanged one-entry feed, one mail
in total. -/
theorem cycle_twice_one_notification_witness :
    (runCycleTwice 1 [eAlpha] ⟨[], []⟩).1 = (.notified gAlpha.game, .sameGame) ∧
    mailCallCount (runCycleTwice 1 [eAlpha] ⟨[], []⟩).2.2 = 1 :=
  cycle_twice_one_notification 1 [eAlpha] ⟨[], []⟩ gAlpha rfl rfl

/-- C5: when curGame yields no current game, the /send-to-mailList handler
leaves the state unchanged for every value of the persisted history and
produces no effect: no history append and no mail. -/
theorem sendToMailList_absent_noaction (mailOk : Bool) (now : Int)
    (feed : List CatalogEntry) (st : ServerState)
    (h : curGame now feed = none) :
    (sendToMailList mailOk now feed st).2.1 = st ∧
    (sendToMailList mailOk now feed st).2.2 = [] := by
  simp [sendToMailList, h]

/-- Witness for C5: an empty feed against a nonempty state. -/
theorem sendToMailList_absent_noaction_witness :
    (sendToMailList true 0 [] ⟨[gAlpha], ["a@x.com"]⟩).2.1 =
      ⟨[gAlpha], ["a@x.com"]⟩ ∧
    (sendToMailList true 0 [] ⟨[gAlpha], ["a@x.com"]⟩).2.2 = [] :=
  sendToMailList_absent_noaction true 0 [] ⟨[gAlpha], ["a@x.com"]⟩ rfl

/-- C6: with an empty history store, the handler notifies for any fetched
game: it persists the game as the sole history entry and invokes the
mailer on the mailing list. -/
theorem sendToMailList_empty_history_notifies (now : Int)
    (feed : List CatalogEntry) (st : ServerState) (G : IGame)
    (hG : curGame now feed = some G) (hh : st.history = []) :
    sendToMailList true now feed st =
      (.notified G.game, { st with history := [G] },
        [.appendGame G,
         .mailCall (buildMailOptions (.many st.mailList) none none
           (some (formatToHTML G)))]) := by
  simp [sendToMailList, hG, hh, jsStrictEqOpt, IGame.eta]

/-- Witness for C6: empty history, one subscriber. -/
theorem sendToMailList_empty_history_notifies_witness :
    sendToMailList true 1 [eAlpha] ⟨[], ["a@x.com"]⟩ =
      (.notified gAlpha.game, ⟨[gAlpha], ["a@x.com"]⟩,
        [.appendGame gAlpha,
         .mailCall (buildMailOptions (.many ["a@x.com"]) none none
           (some (formatToHTML gAlpha)))]) :=
  sendToMailList_empty_history_notifies 1 [eAlpha] ⟨[], ["a@x.com"]⟩ gAlpha
    rfl rfl

/-- C7: adding an email already present in the mailing list is rejected
with the 400 duplicate error, mutates nothing and sends no mail. -/
theorem addMail_duplicate_rejected (mailOk : Bool) (now : Int)
    (feed : List CatalogEntry) (email : String) (st : ServerState)
    (h : st.mailList.contains email = true) :
    addMail mailOk now feed email st = (.duplicate, st, []) ∧
    addMailStatus (addMail mailOk now feed email st).1 = 400 := by
  have hmem : email ∈ st.mailList := by simpa using h
  simp [addMail, hmem, addMailStatus]

/-- Witness for C7: re-adding the sole subscriber. -/
theorem addMail_duplicate_rejected_witness :
    addMail true 0 [] "a@x.com" ⟨[], ["a@x.com"]⟩ =
      (.duplicate, ⟨[], ["a@x.com"]⟩, []) ∧
    addMailStatus (addMail true 0 [] "a@x.com" ⟨[], ["a@x.com"]⟩).1 = 400 :=
  addMail_duplicate_rejected true 0 [] "a@x.com" ⟨[], ["a@x.com"]⟩ rfl

/-- C8: in the notify branch the history append precedes the transporter
call in the effect trace; when the transporter fails the handler reports
the failure but the new game is already persisted, so a later run with
the same feed answers same-game and sends nothing, whether or not its
transporter works. -/
theorem append_before_mail_no_retry (now : Int) (feed : List CatalogEntry)
    (st : ServerState) (G : IGame)
    (hG : curGame now feed = some G)
    (hnew : jsStrictEqOpt G.game (st.history.head?.map IGame.game) = false) :
    sendToMailList false now feed st =
      (.sendFailed, { st with history := G :: st.history },
        [.appendGame G,
         .mailCall (buildMailOptions (.many st.mailList) none none
           (some (formatToHTML G)))]) ∧
    ({ st with history := G :: st.history } : ServerState).history.head?
      = some G ∧
    (∀ mailOk2 : Bool,
      sendToMailList mailOk2 now feed { st with history := G :: st.history } =
        (.sameGame, { st with history := G :: st.history }, [])) := by
  refine ⟨?_, rfl, fun mailOk2 => ?_⟩
  · simp [sendToMailList, hG, hnew, IGame.eta]
  · simp [sendToMailList, hG, jsStrictEqOpt]

/-- Witness for C8: a failing transporter over a two-subscriber list with
a different persisted game. -/
theorem append_before_mail_no_retry_witness :
    sendToMailList false 1 [eAlpha] ⟨[gBeta], ["a@x.com", "b@x.com"]⟩ =
      (.sendFailed, ⟨gAlpha :: [gBeta], ["a@x.com", "b@x.com"]⟩,
        [.appendGame gAlpha,
         .mailCall (buildMailOptions (.many ["a@x.com", "b@x.com"]) none none
           (some (formatToHTML gAlpha)))]) ∧
    (⟨gAlpha :: [gBeta], ["a@x.com", "b@x.com"]⟩ : ServerState).history.head?
      = some gAlpha ∧
    (∀ mailOk2 : Bool,
      sendToMailList mailOk2 1 [eAlpha]
          ⟨gAlpha :: [gBeta], ["a@x.com", "b@x.com"]⟩ =
        (.sameGame, ⟨gAlpha :: [gBeta], ["a@x.com", "b@x.com"]⟩, [])) :=
  append_before_mail_no_retry 1 [eAlpha] ⟨[gBeta], ["a@x.com", "b@x.com"]⟩
    gAlpha rfl rfl

/-- C9: with an empty mailing list, the notify branch still builds the
mail under the visible to field with an empty recipient string (not bcc),
still invokes the transporter, and persists the new game before that
call. -/
theorem empty_recipient_to_mode (mailOk : Bool) (now : Int)
    (feed : List CatalogEntry) (st : ServerState) (G : IGame)
    (hG : curGame now feed = some G)
    (hnew : jsStrictEqOpt G.game (st.history.head?.map IGame.game) = false)
    (hm : st.mailList = []) :
    (buildMailOptions (.many st.mailList) none none
        (some (formatToHTML G))).addrField = .to ∧
    (buildMailOptions (.many st.mailList) none none
        (some (formatToHTML G))).recipients = "" ∧
    sendToMailList mailOk now feed st =
      ((if mailOk then .notified G.game else .sendFailed),
        { st with history := G :: st.history },
        [.appendGame G,
         .mailCall (buildMailOptions (.many st.mailList) none none
           (some (formatToHTML G)))]) := by
  refine ⟨?_, ?_, ?_⟩
  · rw [hm]
    rfl
  · rw [hm]
    rfl
  · simp [sendToMailList, hG, hnew, IGame.eta]

/-- Witness for C9: zero subscribers, empty history, a working
transporter. -/
theorem empty_recipient_to_mode_witness :
    (buildMailOptions (.many (ServerState.mailList ⟨[], []⟩)) none none
        (some (formatToHTML gAlpha))).addrField = .to ∧
    (buildMailOptions (.many (ServerState.mailList ⟨[], []⟩)) none none
        (some (formatToHTML gAlpha))).recipients = "" ∧
    sendToMailList true 1 [eAlpha] ⟨[], []⟩ =
      ((if true then .notified gAlpha.game else .sendFailed),
        ⟨[gAlpha], []⟩,
        [.appendGame gAlpha,
         .mailCall (buildMailOptions (.many (ServerState.mailList ⟨[], []⟩))
           none none (some (formatToHTML gAlpha)))]) :=
  empty_recipient_to_mode true 1 [eAlpha] ⟨[], []⟩ gAlpha rfl rfl rfl

/-- C10: adding a not-yet-present email succeeds with status 201 and
stores the email even when no game is currently free; no mail goes out in
that case, while if a current free game exists a single welcome mail is
sent to that one address under the visible to field. -/
theorem addMail_new_email_added (now : Int) (feed : List CatalogEntry)
    (email : String) (st : ServerState)
    (h : st.mailList.contains email = false) :
    (addMail true now feed email st).1 = .added ∧
    addMailStatus (addMail true now feed email st).1 = 201 ∧
    (addMail true now feed email st).2.1 =
      { st with mailList := st.mailList ++ [email] } ∧
    (curGame now feed = none → (addMail true now feed email st).2.2 = []) ∧
    (∀ G, curGame now feed = some G →
      (addMail true now feed email st).2.2 =
        [.mailCall (buildMailOptions (.single email) none none
          (some (formatToHTML G)))] ∧
      (buildMailOptions (.single email) none none
        (some (formatToHTML G))).addrField = .to ∧
      (buildMailOptions (.single email) none none
        (some (formatToHTML G))).recipients = email) := by
  have hmem : email ∉ st.mailList := by simpa using h
  rcases hcg : curGame now feed with _ | g
  · have he : addMail true now feed email st =
        (.added, { st with mailList := st.mailList ++ [email] }, []) := by
      simp [addMail, hmem, hcg]
    refine ⟨by simp [he], by simp [he, addMailStatus], by simp [he],
      fun _ => by simp [he], fun G hGx => ?_⟩
    simp at hGx
  · have he : addMail true now feed email st =
        (.added, { st with mailList := st.mailList ++ [email] },
          [.mailCall (buildMailOptions (.single email) none none
            (some (formatToHTML g)))]) := by
      simp [addMail, hmem, hcg]
    refine ⟨by simp [he], by simp [he, addMailStatus], by simp [he],
      fun hn => ?_, fun G hGx => ?_⟩
    · simp at hn
    · have hGg : G = g := by
        injection hGx with h2
        exact h2.symm
      subst hGg
      exact ⟨by simp [he], rfl, rfl⟩

/-- Witness for C10: a fresh email against a one-subscriber store and a
feed with a current free game. -/
theorem addMail_new_email_added_witness :
    (addMail true 1 [eAlpha] "c@x.com" ⟨[], ["a@x.com"]⟩).1 = .added ∧
    addMailStatus (addMail true 1 [eAlpha] "c@x.com" ⟨[], ["a@x.com"]⟩).1
      = 201 ∧
    (addMail true 1 [eAlpha] "c@x.com" ⟨[], ["a@x.com"]⟩).2.1 =
      ⟨[], ["a@x.com"] ++ ["c@x.com"]⟩ ∧
    (curGame 1 [eAlpha] = none →
      (addMail true 1 [eAlpha] "c@x.com" ⟨[], ["a@x.com"]⟩).2.2 = []) ∧
    (∀ G, curGame 1 [eAlpha] = some G →
      (addMail true 1 [eAlpha] "c@x.com" ⟨[], ["a@x.com"]⟩).2.2 =
        [.mailCall (buildMailOptions (.single "c@x.com") none none
          (some (formatToHTML G)))] ∧
      (buildMailOptions (.single "c@x.com") none none
        (some (formatToHTML G))).addrField = .to ∧
      (buildMailOptions (.single "c@x.com") none none
        (some (formatToHTML G))).recipients = "c@x.com") :=
  addMail_new_email_added 1 [eAlpha] "c@x.com" ⟨[], ["a@x.com"]⟩ rfl

end EpicFreeGames
